import Mathlib

/-!
Shallow embedding of the validation-and-persistence core of the
`sql-repository-example` user-directory manager:

* `src/domain/vo/users.py` — value objects (`UserCreateUpdateVO`, `UserVO`)
  with validating constructors (age range, email pattern, lower-casing);
* `src/database/initializers.py` — the `users` table schema with its
  UNIQUE and CHECK constraints;
* `src/repositories/users.py` — the repository CRUD operations over that
  table, translating zero-rows-affected and integrity errors into the
  domain failures `UserNotFound` / `IncorrectUserData`.

Python strings are modelled as lists of Unicode code points; the database
table as a list of rows plus SQLite's rowid-assignment rule.  All
operations are pure state-passing functions returning the post-call table
together with a result or a typed error.
-/

deriving instance DecidableEq for Except

namespace SqlRepo

/-- Python strings, modelled as lists of Unicode code points. -/
abbrev PyStr := List Nat

/-- Code points of a Lean string literal, used to write concrete inputs. -/
def pyStr (s : String) : PyStr := s.data.map Char.toNat

/-- One code point of `str.lower` on the alphabet this repository handles:
A–Z (65–90) map to a–z (97–122); every other code point is fixed. -/
def lcChar (c : Nat) : Nat := if 65 ≤ c ∧ c ≤ 90 then c + 32 else c

/-- Python `str.lower`, applied pointwise. -/
def pyLower (s : PyStr) : PyStr := s.map lcChar

/-- ASCII letters and digits, the common core of the email character classes. -/
def isAsciiAlphaNum (c : Nat) : Bool :=
  decide ((65 ≤ c ∧ c ≤ 90) ∨ (97 ≤ c ∧ c ≤ 122) ∨ (48 ≤ c ∧ c ≤ 57))

/-- The local-part class `[a-zA-Z0-9_.+-]` of the email regex. -/
def isLocalChar (c : Nat) : Bool :=
  isAsciiAlphaNum c || decide (c = 95 ∨ c = 46 ∨ c = 43 ∨ c = 45)

/-- The host-label class `[a-zA-Z0-9-]` of the email regex. -/
def isHostChar (c : Nat) : Bool :=
  isAsciiAlphaNum c || decide (c = 45)

/-- The trailing class `[a-zA-Z0-9-.]` of the email regex. -/
def isTailChar (c : Nat) : Bool :=
  isAsciiAlphaNum c || decide (c = 45 ∨ c = 46)

/-- Split a list at the first occurrence of the code point `k`, returning the
parts strictly before and strictly after it, or `none` when `k` is absent. -/
def splitFirst (k : Nat) : PyStr → Option (PyStr × PyStr)
  | [] => none
  | c :: cs =>
    if c = k then some ([], cs)
    else
      match splitFirst k cs with
      | none => none
      | some (l, r) => some (c :: l, r)

/-- Whole-string match of the regex core
`[a-zA-Z0-9_.+-]+@[a-zA-Z0-9-]+\.[a-zA-Z0-9-.]+` from `validate_email`.
Since `@` belongs to no character class and `.` does not belong to the host
class, the regex deterministically splits at the first `@` and at the first
`.` after it. -/
def emailCoreMatch (s : PyStr) : Bool :=
  match splitFirst 64 s with
  | none => false
  | some (loc, dom) =>
    match splitFirst 46 dom with
    | none => false
    | some (host, tail) =>
      !loc.isEmpty && loc.all isLocalChar &&
      !host.isEmpty && host.all isHostChar &&
      !tail.isEmpty && tail.all isTailChar

/-- Python `re.match` with the `^...$`-anchored email pattern: in Python,
`$` also matches just before a newline that is the last character of the
string, so a core match followed by one trailing newline is accepted. -/
def reMatchEmail (s : PyStr) : Bool :=
  emailCoreMatch s || (decide (s.getLast? = some 10) && emailCoreMatch s.dropLast)

/-- Validation failures of the value-object layer (Python `ValueError`; the
`TypeError` branches of `check_type` cannot fire in the typed embedding). -/
inductive VErr where
  | valueError : VErr
deriving DecidableEq

/-- Model of `UserBaseValueObject.validate_email`: reject non-matching strings with a
`ValueError`, otherwise return the lower-cased email. -/
def validate_email (email : PyStr) : Except VErr PyStr :=
  if reMatchEmail email then .ok (pyLower email) else .error .valueError

/-- Model of `UserCreateUpdateVO`: the validated create-update record. -/
structure UserCreateUpdateVO where
  name : PyStr
  surname : PyStr
  age : Int
  email : PyStr
deriving DecidableEq

/-- Construction of a `UserCreateUpdateVO` (its `__post_init__`): the base
class checks `18 <= age <= 100` and lower-cases name and surname, then the
email is validated and lower-cased; any failure aborts construction. -/
def mkUserCreateUpdateVO (name surname : PyStr) (age : Int) (email : PyStr) :
    Except VErr UserCreateUpdateVO :=
  if 18 ≤ age ∧ age ≤ 100 then
    match validate_email email with
    | .ok e => .ok ⟨pyLower name, pyLower surname, age, e⟩
    | .error err => .error err
  else .error .valueError

/-- Model of `UserVO`: the persisted record, with its storage-assigned id. -/
structure UserVO where
  id : Int
  name : PyStr
  surname : PyStr
  age : Int
  email : PyStr
deriving DecidableEq

/-- Construction of a `UserVO` (its `__post_init__`): the base checks run
first (age range, lower-casing of names), then `id <= 0` is rejected, then
the email is validated and lower-cased. -/
def mkUserVO (id : Int) (name surname : PyStr) (age : Int) (email : PyStr) :
    Except VErr UserVO :=
  if 18 ≤ age ∧ age ≤ 100 then
    if id ≤ 0 then .error .valueError
    else
      match validate_email email with
      | .ok e => .ok ⟨id, pyLower name, pyLower surname, age, e⟩
      | .error err => .error err
  else .error .valueError

/-- One row of the `users` table. -/
structure Row where
  id : Int
  email : PyStr
  name : PyStr
  surname : PyStr
  age : Int
deriving DecidableEq

/-- Tokens of a SQLite LIKE pattern: `%`, `_`, or a literal character. -/
inductive LTok where
  | pct : LTok
  | usc : LTok
  | lit : Nat → LTok
deriving DecidableEq

/-- SQLite `LIKE` matching (`%` matches any sequence, `_` any single
character, literals compare ASCII-case-insensitively); the `%` case tries
every possible split of the remaining string. -/
def likeMatch : List LTok → PyStr → Bool
  | [], s => s.isEmpty
  | .pct :: p, s => (List.range (s.length + 1)).any (fun n => likeMatch p (s.drop n))
  | .usc :: _, [] => false
  | .usc :: p, _ :: s => likeMatch p s
  | .lit _ :: _, [] => false
  | .lit k :: p, c :: s => decide (lcChar k = lcChar c) && likeMatch p s

/-- The pattern `'%_@__%.__%'` of the email CHECK constraint in the
`CREATE TABLE` statement of `initialize_table`. -/
def emailLikePat : List LTok :=
  [.pct, .usc, .lit 64, .usc, .usc, .pct, .lit 46, .usc, .usc, .pct]

/-- The CHECK constraints of the `users` table, evaluated on one row:
`LENGTH(email) <= 100 AND email LIKE '%_@__%.__%'`, `LENGTH(name) <= 50`,
`LENGTH(surname) <= 50`, `age BETWEEN 18 AND 100`. -/
def rowChecks (r : Row) : Bool :=
  decide (r.email.length ≤ 100) && likeMatch emailLikePat r.email &&
  decide (r.name.length ≤ 50) && decide (r.surname.length ≤ 50) &&
  decide (18 ≤ r.age ∧ r.age ≤ 100)

/-- Storage-level failures (sqlite3 `IntegrityError`). -/
inductive SqlErr where
  | integrityError : SqlErr
deriving DecidableEq

/-- SQLite rowid assignment for `INTEGER PRIMARY KEY` when no id is supplied:
one more than the largest rowid in the table, or 1 on an empty table. -/
def nextRowId (t : List Row) : Int :=
  match t.map Row.id with
  | [] => 1
  | i :: is => (is.foldl max i) + 1

/-- Model of `INSERT INTO users (email, name, surname, age) VALUES (?, ?, ?, ?)`:
fails with an `IntegrityError` on a UNIQUE collision on email or a CHECK
violation, otherwise appends the new row and reports its rowid. -/
def sqliteInsert (t : List Row) (email name surname : PyStr) (age : Int) :
    Except SqlErr (List Row × Int) :=
  let rid := nextRowId t
  let r : Row := ⟨rid, email, name, surname, age⟩
  if t.any (fun x => decide (x.email = email)) then .error .integrityError
  else if rowChecks r then .ok (t ++ [r], rid)
  else .error .integrityError

/-- Domain-level failures raised by the repository operations. -/
inductive RepoErr where
  | userNotFound : RepoErr
  | incorrectUserData : RepoErr
  | valueError : RepoErr
deriving DecidableEq

/-- Model of `UserRepository.add_user`: insert the validated record; an
`IntegrityError` becomes `IncorrectUserData` and the uncommitted insert is
rolled back; on success the committed table and the re-validated `UserVO`
(built from the new rowid and the record's fields) are returned. -/
def add_user (t : List Row) (u : UserCreateUpdateVO) :
    List Row × Except RepoErr UserVO :=
  match sqliteInsert t u.email u.name u.surname u.age with
  | .error _ => (t, .error .incorrectUserData)
  | .ok (t2, rid) =>
    match mkUserVO rid u.name u.surname u.age u.email with
    | .ok vo => (t2, .ok vo)
    | .error _ => (t2, .error .valueError)

/-- Model of `UserRepository.get_user_by_email`: `SELECT ... WHERE email = ?` with
SQLite's exact (BINARY) comparison; an absent row raises `UserNotFound`,
a present row is re-validated into a `UserVO`. -/
def get_user_by_email (t : List Row) (email : PyStr) : Except RepoErr UserVO :=
  match t.find? (fun r => decide (r.email = email)) with
  | none => .error .userNotFound
  | some r =>
    match mkUserVO r.id r.name r.surname r.age r.email with
    | .ok vo => .ok vo
    | .error _ => .error .valueError

/-- Model of `UserRepository.get_all_users`: every row is re-validated into a
`UserVO`, in storage order; the first failing row aborts the whole call. -/
def get_all_users : List Row → Except RepoErr (List UserVO)
  | [] => .ok []
  | r :: rs =>
    match mkUserVO r.id r.name r.surname r.age r.email with
    | .error _ => .error .valueError
    | .ok vo =>
      match get_all_users rs with
      | .error e => .error e
      | .ok vs => .ok (vo :: vs)

/-- The `SET name = ?, surname = ?, age = ? WHERE email = ?` clause applied
to one row: rows with a matching email receive the new mutable fields, all
other rows are unchanged. -/
def updRow (u : UserCreateUpdateVO) (r : Row) : Row :=
  if r.email = u.email then
    { r with name := u.name, surname := u.surname, age := u.age }
  else r

/-- Model of `UserRepository.update_user`: `UPDATE users SET name, surname, age WHERE
email = ?`.  A CHECK violation on any affected row raises `IntegrityError`
(surfaced as `IncorrectUserData`) before the rowcount test; a rowcount of
zero raises `UserNotFound`; both leave the uncommitted table unchanged. -/
def update_user (t : List Row) (u : UserCreateUpdateVO) :
    List Row × Except RepoErr Unit :=
  if (t.filter (fun r => decide (r.email = u.email))).any
      (fun r => !rowChecks (updRow u r)) then (t, .error .incorrectUserData)
  else if (t.filter (fun r => decide (r.email = u.email))).isEmpty then
    (t, .error .userNotFound)
  else (t.map (updRow u), .ok ())

/-- Model of `UserRepository.delete_user_by_email`: `DELETE FROM users WHERE
email = ?`; a rowcount of zero raises `UserNotFound` and leaves the table
unchanged. -/
def delete_user_by_email (t : List Row) (email : PyStr) :
    List Row × Except RepoErr Unit :=
  let remaining := t.filter (fun r => decide (¬ r.email = email))
  if remaining.length = t.length then (t, .error .userNotFound)
  else (remaining, .ok ())

/-- Model of `UserRepository.delete_all_users`: `DELETE FROM users`; never fails. -/
def delete_all_users (_t : List Row) : List Row × Except RepoErr Unit :=
  ([], .ok ())

/-- The shape of the `users` table schema as created by
`DatabaseInitializer.initialize_table`. -/
structure UsersSchema where
  emailUnique : Bool
  emailMaxLen : Nat
  emailPat : List LTok
  nameMaxLen : Nat
  surnameMaxLen : Nat
  ageMin : Int
  ageMax : Int
deriving DecidableEq

/-- The concrete schema from the `CREATE TABLE` statement. -/
def usersSchema : UsersSchema := ⟨true, 100, emailLikePat, 50, 50, 18, 100⟩

/-- Model of `DatabaseInitializer.initialize_table` (the spec's `ensureSchema`):
`CREATE TABLE IF NOT EXISTS users ...` creates the schema when absent and
leaves an existing table untouched; it never fails. -/
def ensureSchema (s : Option UsersSchema) : Option UsersSchema :=
  match s with
  | none => some usersSchema
  | some existing => some existing

/-- Modelled from the spec grammar of §3, independently of the code: a
full-string match of local-part `[A-Za-z0-9_.+-]+`, `@`, a host label
`[A-Za-z0-9-]+`, `.`, then one or more labels of `[A-Za-z0-9-.]+` (as `.`
belongs to the class, one or more labels over the class amount to a single
nonempty string over the class). -/
def specEmailGrammar (s : PyStr) : Bool :=
  match splitFirst 64 s with
  | none => false
  | some (loc, dom) =>
    match splitFirst 46 dom with
    | none => false
    | some (host, tail) =>
      !loc.isEmpty && loc.all isLocalChar &&
      !host.isEmpty && host.all isHostChar &&
      !tail.isEmpty && tail.all isTailChar

/-- The field invariants of a persisted user record: positive id, age in
range, an email that matches the pattern and is lower-case, and lower-case
name and surname. -/
def returnedUserInvariants (u : UserVO) : Prop :=
  0 < u.id ∧ 18 ≤ u.age ∧ u.age ≤ 100 ∧ reMatchEmail u.email = true ∧
  u.email = pyLower u.email ∧ u.name = pyLower u.name ∧ u.surname = pyLower u.surname

/-- Lower-casing a code point twice gives the same result as once. -/
theorem lcChar_idem (c : Nat) : lcChar (lcChar c) = lcChar c := by
  unfold lcChar
  split <;> (try split) <;> omega

/-- Python `str.lower` is idempotent. -/
theorem pyLower_idem (s : PyStr) : pyLower (pyLower s) = pyLower s := by
  induction s with
  | nil => rfl
  | cons c cs ih =>
    simp only [pyLower, List.map_cons] at ih ⊢
    rw [lcChar_idem, ih]

/-- The local-part class is closed under lower-casing. -/
theorem lcChar_localChar {c : Nat} (h : isLocalChar c = true) :
    isLocalChar (lcChar c) = true := by
  simp only [isLocalChar, isAsciiAlphaNum, lcChar, Bool.or_eq_true,
    decide_eq_true_eq] at h ⊢
  split <;> omega

/-- The host-label class is closed under lower-casing. -/
theorem lcChar_hostChar {c : Nat} (h : isHostChar c = true) :
    isHostChar (lcChar c) = true := by
  simp only [isHostChar, isAsciiAlphaNum, lcChar, Bool.or_eq_true,
    decide_eq_true_eq] at h ⊢
  split <;> omega

/-- The trailing class is closed under lower-casing. -/
theorem lcChar_tailChar {c : Nat} (h : isTailChar c = true) :
    isTailChar (lcChar c) = true := by
  simp only [isTailChar, isAsciiAlphaNum, lcChar, Bool.or_eq_true,
    decide_eq_true_eq] at h ⊢
  split <;> omega

/-- Lower-casing fixes `@` and maps no other code point to it. -/
theorem lcChar_eq_at_sign (c : Nat) : lcChar c = 64 ↔ c = 64 := by
  unfold lcChar; split <;> omega

/-- Lower-casing fixes `.` and maps no other code point to it. -/
theorem lcChar_eq_dot (c : Nat) : lcChar c = 46 ↔ c = 46 := by
  unfold lcChar; split <;> omega

/-- The function `splitFirst` commutes with lower-casing when the separator is fixed by
lower-casing and not hit by it. -/
theorem splitFirst_map_lc {k : Nat} (hk : ∀ c, lcChar c = k ↔ c = k) (s : PyStr) :
    splitFirst k (s.map lcChar) =
      (splitFirst k s).map (fun p => (p.1.map lcChar, p.2.map lcChar)) := by
  induction s with
  | nil => rfl
  | cons c cs ih =>
    by_cases hc : c = k
    · subst hc
      simp [splitFirst, (hk c).mpr rfl]
    · have hlc : ¬ lcChar c = k := fun h => hc ((hk c).mp h)
      simp only [List.map_cons, splitFirst, if_neg hc, if_neg hlc, ih]
      cases splitFirst k cs with
      | none => rfl
      | some p => cases p; rfl

/-- Mapping preserves emptiness of a list. -/
theorem isEmpty_map {α β : Type} (f : α → β) (l : List α) :
    (l.map f).isEmpty = l.isEmpty := by
  cases l <;> rfl

/-- A class closed under lower-casing stays satisfied after lower-casing. -/
theorem all_comp_lc (p : Nat → Bool) (hp : ∀ c, p c = true → p (lcChar c) = true)
    {l : PyStr} (h : l.all p = true) : l.all (p ∘ lcChar) = true := by
  rw [List.all_eq_true] at h ⊢
  intro x hx
  exact hp x (h x hx)

/-- A string matching the email regex core still matches after `str.lower`. -/
theorem emailCoreMatch_lower {s : PyStr} (h : emailCoreMatch s = true) :
    emailCoreMatch (pyLower s) = true := by
  cases hs : splitFirst 64 s with
  | none =>
    unfold emailCoreMatch at h
    simp [hs] at h
  | some p =>
    obtain ⟨loc, dom⟩ := p
    cases hd : splitFirst 46 dom with
    | none =>
      unfold emailCoreMatch at h
      simp [hs, hd] at h
    | some q =>
      obtain ⟨host, tail⟩ := q
      unfold emailCoreMatch at h ⊢
      have hmap64 := splitFirst_map_lc lcChar_eq_at_sign s
      have hmap46 := splitFirst_map_lc lcChar_eq_dot dom
      rw [hs] at hmap64
      rw [hd] at hmap46
      simp only [Option.map_some'] at hmap64 hmap46
      simp only [hs, hd] at h
      simp only [pyLower, hmap64, hmap46, isEmpty_map, List.all_map]
      simp only [Bool.and_eq_true] at h ⊢
      obtain ⟨⟨⟨⟨⟨e1, a1⟩, e2⟩, a2⟩, e3⟩, a3⟩ := h
      exact ⟨⟨⟨⟨⟨e1, all_comp_lc isLocalChar (fun c h => lcChar_localChar h) a1⟩, e2⟩,
        all_comp_lc isHostChar (fun c h => lcChar_hostChar h) a2⟩, e3⟩,
        all_comp_lc isTailChar (fun c h => lcChar_tailChar h) a3⟩

/-- A string accepted by the Python email match is still accepted after
`str.lower`; hence re-validating an already-normalized email succeeds. -/
theorem reMatchEmail_lower {s : PyStr} (h : reMatchEmail s = true) :
    reMatchEmail (pyLower s) = true := by
  unfold reMatchEmail at h ⊢
  simp only [Bool.or_eq_true, Bool.and_eq_true, decide_eq_true_eq] at h ⊢
  rcases h with h | ⟨h1, h2⟩
  · exact Or.inl (emailCoreMatch_lower h)
  · refine Or.inr ⟨?_, ?_⟩
    · show (s.map lcChar).getLast? = some 10
      rw [List.getLast?_map, h1]
      rfl
    · show emailCoreMatch (s.map lcChar).dropLast = true
      rw [← List.map_dropLast]
      exact emailCoreMatch_lower h2

/-- The initial value bounds a fold of `max` from below. -/
theorem le_foldl_max (l : List Int) (i : Int) : i ≤ l.foldl max i := by
  induction l generalizing i with
  | nil => exact le_refl i
  | cons a as ih => exact le_trans (le_max_left i a) (ih (max i a))

/-- SQLite assigns a positive rowid whenever all existing rowids are positive. -/
theorem nextRowId_pos (t : List Row) (h : ∀ r ∈ t, 0 < r.id) : 0 < nextRowId t := by
  unfold nextRowId
  cases t with
  | nil => decide
  | cons r rs =>
    simp only [List.map_cons]
    have h1 : 0 < r.id := h r (by simp)
    have h2 : r.id ≤ (rs.map Row.id).foldl max r.id := le_foldl_max _ _
    omega

/-- Characterization of successful email validation. -/
theorem validate_email_ok_iff (email e : PyStr) :
    validate_email email = .ok e ↔ reMatchEmail email = true ∧ e = pyLower email := by
  unfold validate_email
  by_cases h : reMatchEmail email = true
  · rw [if_pos h]
    constructor
    · intro he
      exact ⟨h, (Except.ok.inj he).symm⟩
    · rintro ⟨-, rfl⟩
      rfl
  · rw [if_neg h]
    constructor
    · intro he
      cases he
    · rintro ⟨hm, -⟩
      exact absurd hm h

/-- Characterization of successful `UserCreateUpdateVO` construction. -/
theorem mkUserCreateUpdateVO_ok_iff (name surname email : PyStr) (age : Int)
    (u : UserCreateUpdateVO) :
    mkUserCreateUpdateVO name surname age email = .ok u ↔
      (18 ≤ age ∧ age ≤ 100) ∧ reMatchEmail email = true ∧
      u = ⟨pyLower name, pyLower surname, age, pyLower email⟩ := by
  unfold mkUserCreateUpdateVO
  by_cases hage : 18 ≤ age ∧ age ≤ 100
  · rw [if_pos hage]
    by_cases hm : reMatchEmail email = true
    · rw [show validate_email email = .ok (pyLower email) by
        unfold validate_email; rw [if_pos hm]]
      constructor
      · intro h
        exact ⟨hage, hm, (Except.ok.inj h).symm⟩
      · rintro ⟨-, -, rfl⟩
        rfl
    · rw [show validate_email email = .error .valueError by
        unfold validate_email; rw [if_neg hm]]
      constructor
      · intro h
        cases h
      · rintro ⟨-, hm2, -⟩
        exact absurd hm2 hm
  · rw [if_neg hage]
    constructor
    · intro h
      cases h
    · rintro ⟨hage2, -, -⟩
      exact absurd hage2 hage

/-- Characterization of successful `UserVO` construction. -/
theorem mkUserVO_ok_iff (id : Int) (name surname email : PyStr) (age : Int)
    (u : UserVO) :
    mkUserVO id name surname age email = .ok u ↔
      (18 ≤ age ∧ age ≤ 100) ∧ 0 < id ∧ reMatchEmail email = true ∧
      u = ⟨id, pyLower name, pyLower surname, age, pyLower email⟩ := by
  unfold mkUserVO
  by_cases hage : 18 ≤ age ∧ age ≤ 100
  · rw [if_pos hage]
    by_cases hid : id ≤ 0
    · rw [if_pos hid]
      constructor
      · intro h
        cases h
      · rintro ⟨-, hid2, -, -⟩
        omega
    · rw [if_neg hid]
      by_cases hm : reMatchEmail email = true
      · rw [show validate_email email = .ok (pyLower email) by
          unfold validate_email; rw [if_pos hm]]
        constructor
        · intro h
          exact ⟨hage, by omega, hm, (Except.ok.inj h).symm⟩
        · rintro ⟨-, -, -, rfl⟩
          rfl
      · rw [show validate_email email = .error .valueError by
          unfold validate_email; rw [if_neg hm]]
        constructor
        · intro h
          cases h
        · rintro ⟨-, -, hm2, -⟩
          exact absurd hm2 hm
  · rw [if_neg hage]
    constructor
    · intro h
      cases h
    · rintro ⟨hage2, -, -, -⟩
      exact absurd hage2 hage

/-- C5: for every integer age `a`, constructing a record with `a < 18` or
`a > 100` fails with a `ValidationError`, and constructing with
`18 ≤ a ≤ 100` succeeds, all other fields being valid. -/
theorem c5_age_bounds (name surname email : PyStr) (age : Int)
    (he : reMatchEmail email = true) :
    ((age < 18 ∨ 100 < age) →
      mkUserCreateUpdateVO name surname age email = .error .valueError) ∧
    (18 ≤ age ∧ age ≤ 100 →
      mkUserCreateUpdateVO name surname age email =
        .ok ⟨pyLower name, pyLower surname, age, pyLower email⟩) := by
  constructor
  · intro h
    unfold mkUserCreateUpdateVO
    rw [if_neg (by omega)]
  · intro h
    exact (mkUserCreateUpdateVO_ok_iff _ _ _ _ _).mpr ⟨h, he, rfl⟩

/-- C5 witness: with valid name, surname and email, ages 17 and 101 are
rejected while the edge ages 18 and 100 are accepted. -/
theorem c5_age_bounds_witness :
    mkUserCreateUpdateVO (pyStr "John") (pyStr "Doe") 17 (pyStr "john@example.com") =
      .error .valueError ∧
    mkUserCreateUpdateVO (pyStr "John") (pyStr "Doe") 18 (pyStr "john@example.com") =
      .ok ⟨pyLower (pyStr "John"), pyLower (pyStr "Doe"), 18,
        pyLower (pyStr "john@example.com")⟩ ∧
    mkUserCreateUpdateVO (pyStr "John") (pyStr "Doe") 100 (pyStr "john@example.com") =
      .ok ⟨pyLower (pyStr "John"), pyLower (pyStr "Doe"), 100,
        pyLower (pyStr "john@example.com")⟩ ∧
    mkUserCreateUpdateVO (pyStr "John") (pyStr "Doe") 101 (pyStr "john@example.com") =
      .error .valueError :=
  ⟨(c5_age_bounds (pyStr "John") (pyStr "Doe") (pyStr "john@example.com") 17
      (by decide)).1 (by omega),
   (c5_age_bounds (pyStr "John") (pyStr "Doe") (pyStr "john@example.com") 18
      (by decide)).2 (by omega),
   (c5_age_bounds (pyStr "John") (pyStr "Doe") (pyStr "john@example.com") 100
      (by decide)).2 (by omega),
   (c5_age_bounds (pyStr "John") (pyStr "Doe") (pyStr "john@example.com") 101
      (by decide)).1 (by omega)⟩

/-- C2 counterexample: with an empty name (and valid age and email) both
record constructors succeed — no `ValidationError` is raised — storing the
empty name; the claim that empty name or surname fails is false. -/
theorem c2_empty_name_counterexample :
    mkUserCreateUpdateVO (pyStr "") (pyStr "Doe") 25 (pyStr "a@bc.de") =
      .ok ⟨[], pyStr "doe", 25, pyStr "a@bc.de"⟩ ∧
    mkUserVO 1 (pyStr "") (pyStr "Doe") 25 (pyStr "a@bc.de") =
      .ok ⟨1, [], pyStr "doe", 25, pyStr "a@bc.de"⟩ := by
  decide

/-- C2 amended: record construction performs no emptiness check on name or
surname — with any name and surname, including empty strings, construction
succeeds whenever the age is in range and the email matches the pattern,
and the (possibly empty) lower-cased values are stored. -/
theorem c2_empty_name_amended (name surname email : PyStr) (age : Int)
    (ha : 18 ≤ age ∧ age ≤ 100) (he : reMatchEmail email = true) :
    mkUserCreateUpdateVO name surname age email =
      .ok ⟨pyLower name, pyLower surname, age, pyLower email⟩ ∧
    mkUserVO 1 name surname age email =
      .ok ⟨1, pyLower name, pyLower surname, age, pyLower email⟩ :=
  ⟨(mkUserCreateUpdateVO_ok_iff _ _ _ _ _).mpr ⟨ha, he, rfl⟩,
   (mkUserVO_ok_iff _ _ _ _ _ _).mpr ⟨ha, by omega, he, rfl⟩⟩

/-- C2 amended witness: both constructors accept empty name and surname. -/
theorem c2_empty_name_amended_witness :
    mkUserCreateUpdateVO (pyStr "") (pyStr "") 25 (pyStr "a@bc.de") =
      .ok ⟨pyLower (pyStr ""), pyLower (pyStr ""), 25, pyLower (pyStr "a@bc.de")⟩ ∧
    mkUserVO 1 (pyStr "") (pyStr "") 25 (pyStr "a@bc.de") =
      .ok ⟨1, pyLower (pyStr ""), pyLower (pyStr ""), 25, pyLower (pyStr "a@bc.de")⟩ :=
  c2_empty_name_amended (pyStr "") (pyStr "") (pyStr "a@bc.de") 25
    (by decide) (by decide)

/-- C4 counterexample: the string `"a@bc.de\n"` (with a trailing newline)
does not match the spec grammar, yet `validate_email` accepts it — and
stores it, newline included — because Python's `$` anchor also matches just
before a trailing newline. -/
theorem c4_email_grammar_counterexample :
    specEmailGrammar (pyStr "a@bc.de" ++ [10]) = false ∧
    validate_email (pyStr "a@bc.de" ++ [10]) = .ok (pyStr "a@bc.de" ++ [10]) := by
  decide

/-- C4 amended: construction succeeds exactly on strings matching the spec
grammar or consisting of a grammar match followed by one trailing newline
(Python `re` `$` semantics), and then the stored email is the lower-cased
input; for every other string it fails with a `ValidationError`. -/
theorem c4_email_grammar_amended (email : PyStr) :
    (validate_email email = .ok (pyLower email) ↔
      (specEmailGrammar email = true ∨
        (email.getLast? = some 10 ∧ specEmailGrammar email.dropLast = true))) ∧
    ((specEmailGrammar email = false ∧
        ¬(email.getLast? = some 10 ∧ specEmailGrammar email.dropLast = true)) →
      validate_email email = .error .valueError) := by
  have hspec : ∀ t, specEmailGrammar t = emailCoreMatch t := fun t => rfl
  have hiff : reMatchEmail email = true ↔
      (specEmailGrammar email = true ∨
        (email.getLast? = some 10 ∧ specEmailGrammar email.dropLast = true)) := by
    unfold reMatchEmail
    simp [hspec, Bool.or_eq_true, Bool.and_eq_true, decide_eq_true_eq]
  constructor
  · constructor
    · intro h
      by_cases hm : reMatchEmail email = true
      · exact hiff.mp hm
      · unfold validate_email at h
        rw [if_neg hm] at h
        cases h
    · intro h
      unfold validate_email
      rw [if_pos (hiff.mpr h)]
  · intro h
    unfold validate_email
    rw [if_neg]
    intro hm
    rcases hiff.mp hm with hg | hg
    · rw [h.1] at hg
      cases hg
    · exact h.2 hg

/-- C4 amended witness: a grammar match is accepted and lower-cased; a
non-matching string is rejected. -/
theorem c4_email_grammar_amended_witness :
    validate_email (pyStr "john@EXAMPLE.com") =
      .ok (pyLower (pyStr "john@EXAMPLE.com")) ∧
    validate_email (pyStr "not-an-email") = .error .valueError :=
  ⟨(c4_email_grammar_amended (pyStr "john@EXAMPLE.com")).1.mpr (Or.inl (by decide)),
   (c4_email_grammar_amended (pyStr "not-an-email")).2 (by decide)⟩

/-- C8: schema initialization is idempotent — from any starting state a call
never fails (it always yields a schema), and a second call leaves the schema
identical to the result of a single call. -/
theorem c8_ensure_schema_idempotent (s : Option UsersSchema) :
    ensureSchema (ensureSchema s) = ensureSchema s ∧
    ∃ sch, ensureSchema s = some sch := by
  cases s with
  | none => exact ⟨rfl, usersSchema, rfl⟩
  | some t => exact ⟨rfl, t, rfl⟩

/-- C10: `get_user_by_email` performs no normalization of its argument — a
query string that equals no stored email byte-for-byte (for example a
mixed-case variant of a stored lower-cased email) fails with
`UserNotFound`. -/
theorem c10_get_exact_match_only (t : List Row) (e : PyStr)
    (h : ∀ r ∈ t, r.email ≠ e) :
    get_user_by_email t e = .error .userNotFound := by
  unfold get_user_by_email
  have hf : t.find? (fun r => decide (r.email = e)) = none := by
    rw [List.find?_eq_none]
    intro r hr
    simp only [decide_eq_true_eq]
    exact h r hr
  rw [hf]

/-- C10 witness: the stored row holds exactly the lower-cased form of the
mixed-case query, yet the mixed-case lookup fails. -/
theorem c10_get_exact_match_only_witness :
    pyLower (pyStr "John@Example.com") = pyStr "john@example.com" ∧
    get_user_by_email
      [⟨1, pyStr "john@example.com", pyStr "john", pyStr "doe", 25⟩]
      (pyStr "John@Example.com") = .error .userNotFound :=
  ⟨by decide,
   c10_get_exact_match_only
     [⟨1, pyStr "john@example.com", pyStr "john", pyStr "doe", 25⟩]
     (pyStr "John@Example.com") (by decide)⟩

/-- C1: for every email string with no matching row, `update_user` and
`delete_user_by_email` fail with `UserNotFound` rather than silently
succeeding, and the failing calls leave the table unchanged — in particular
the failing update creates no row. -/
theorem c1_update_delete_not_found (t : List Row) (u : UserCreateUpdateVO)
    (e : PyStr) (hu : ∀ r ∈ t, r.email ≠ u.email) (he : ∀ r ∈ t, r.email ≠ e) :
    update_user t u = (t, .error .userNotFound) ∧
    delete_user_by_email t e = (t, .error .userNotFound) := by
  constructor
  · unfold update_user
    have ht : t.filter (fun r => decide (r.email = u.email)) = [] := by
      rw [List.filter_eq_nil_iff]
      intro r hr
      simp only [decide_eq_true_eq]
      exact hu r hr
    simp [ht]
  · unfold delete_user_by_email
    have ht : t.filter (fun r => decide (¬ r.email = e)) = t := by
      rw [List.filter_eq_self]
      intro r hr
      simp only [decide_eq_true_eq]
      exact he r hr
    simp [ht]
    intro x hx
    exact he x hx

/-- C1 witness: on a table holding one user, an update and a delete aimed at
an absent email both fail with `UserNotFound` and leave the row intact. -/
theorem c1_update_delete_not_found_witness :
    update_user [⟨1, pyStr "john@example.com", pyStr "john", pyStr "doe", 25⟩]
      ⟨pyStr "jane", pyStr "roe", 30, pyStr "nonexistent@x.com"⟩ =
      ([⟨1, pyStr "john@example.com", pyStr "john", pyStr "doe", 25⟩],
        .error .userNotFound) ∧
    delete_user_by_email
      [⟨1, pyStr "john@example.com", pyStr "john", pyStr "doe", 25⟩]
      (pyStr "nonexistent@x.com") =
      ([⟨1, pyStr "john@example.com", pyStr "john", pyStr "doe", 25⟩],
        .error .userNotFound) :=
  c1_update_delete_not_found
    [⟨1, pyStr "john@example.com", pyStr "john", pyStr "doe", 25⟩]
    ⟨pyStr "jane", pyStr "roe", 30, pyStr "nonexistent@x.com"⟩
    (pyStr "nonexistent@x.com") (by decide) (by decide)

/-- C3: adding a record whose email is already present fails with the
duplicate-key failure (`IncorrectUserData`, raised from the UNIQUE
violation), and the table — in particular the pre-existing row — is
unchanged by the failed call. -/
theorem c3_add_duplicate_email (t : List Row) (u : UserCreateUpdateVO)
    (h : ∃ r ∈ t, r.email = u.email) :
    add_user t u = (t, .error .incorrectUserData) := by
  unfold add_user sqliteInsert
  have ha : t.any (fun x => decide (x.email = u.email)) = true := by
    rw [List.any_eq_true]
    obtain ⟨r, hr, hre⟩ := h
    exact ⟨r, hr, by simp [hre]⟩
  simp [ha]

/-- C3 witness: re-adding the stored email fails and keeps the table. -/
theorem c3_add_duplicate_email_witness :
    add_user [⟨1, pyStr "john@example.com", pyStr "john", pyStr "doe", 25⟩]
      ⟨pyStr "jane", pyStr "roe", 30, pyStr "john@example.com"⟩ =
      ([⟨1, pyStr "john@example.com", pyStr "john", pyStr "doe", 25⟩],
        .error .incorrectUserData) :=
  c3_add_duplicate_email
    [⟨1, pyStr "john@example.com", pyStr "john", pyStr "doe", 25⟩]
    ⟨pyStr "jane", pyStr "roe", 30, pyStr "john@example.com"⟩ (by decide)

/-- C7: a create call whose email exceeds 100 characters or whose name or
surname exceeds 50 characters fails at the storage boundary with the table
unchanged; an update call with an over-long name or surname fails with the
table unchanged; an update call addressing an over-long email finds no row
(stored emails never exceed 100 characters) and fails with `UserNotFound`.
No row with a truncated field is ever stored. -/
theorem c7_length_caps (t : List Row) (u : UserCreateUpdateVO) :
    ((100 < u.email.length ∨ 50 < u.name.length ∨ 50 < u.surname.length) →
      add_user t u = (t, .error .incorrectUserData)) ∧
    ((50 < u.name.length ∨ 50 < u.surname.length) →
      (update_user t u).1 = t ∧ ∃ err, (update_user t u).2 = .error err) ∧
    ((∀ r ∈ t, r.email.length ≤ 100) → 100 < u.email.length →
      update_user t u = (t, .error .userNotFound)) := by
  refine ⟨?_, ?_, ?_⟩
  · intro h
    unfold add_user sqliteInsert
    by_cases hd : t.any (fun x => decide (x.email = u.email)) = true
    · simp [hd]
    · have hrc : rowChecks ⟨nextRowId t, u.email, u.name, u.surname, u.age⟩ = false := by
        cases hrc0 : rowChecks ⟨nextRowId t, u.email, u.name, u.surname, u.age⟩ with
        | false => rfl
        | true =>
          exfalso
          simp only [rowChecks, Bool.and_eq_true, decide_eq_true_eq] at hrc0
          obtain ⟨⟨⟨⟨h1, -⟩, h3⟩, h4⟩, -⟩ := hrc0
          omega
      simp [hd, hrc]
  · intro h
    unfold update_user
    by_cases htouched : t.filter (fun r => decide (r.email = u.email)) = []
    · simp [htouched]
    · have hany : (t.filter (fun r => decide (r.email = u.email))).any
          (fun r => !rowChecks (updRow u r)) = true := by
        obtain ⟨r, hr⟩ := List.exists_mem_of_ne_nil _ htouched
        rw [List.any_eq_true]
        refine ⟨r, hr, ?_⟩
        have hre : r.email = u.email := by
          have := (List.mem_filter.mp hr).2
          simpa using this
        have hupd : updRow u r =
            { r with name := u.name, surname := u.surname, age := u.age } := by
          unfold updRow
          rw [if_pos hre]
        rw [hupd, Bool.not_eq_true']
        cases hrc0 : rowChecks { r with name := u.name, surname := u.surname, age := u.age } with
        | false => rfl
        | true =>
          exfalso
          simp only [rowChecks, Bool.and_eq_true, decide_eq_true_eq] at hrc0
          obtain ⟨⟨⟨-, h3⟩, h4⟩, -⟩ := hrc0
          omega
      simp [hany]
  · intro hwf hlen
    unfold update_user
    have ht : t.filter (fun r => decide (r.email = u.email)) = [] := by
      rw [List.filter_eq_nil_iff]
      intro r hr
      simp only [decide_eq_true_eq]
      intro heq
      have := hwf r hr
      rw [heq] at this
      omega
    simp [ht]

/-- C7 witness: a 51-character name makes create and update fail with the
empty table unchanged; a 101-character email makes update report
`UserNotFound`. -/
theorem c7_length_caps_witness :
    add_user [] ⟨List.replicate 51 97, pyStr "doe", 25, pyStr "a@bc.de"⟩ =
      ([], .error .incorrectUserData) ∧
    ((update_user [] ⟨List.replicate 51 97, pyStr "doe", 25, pyStr "a@bc.de"⟩).1 = [] ∧
      ∃ err, (update_user []
        ⟨List.replicate 51 97, pyStr "doe", 25, pyStr "a@bc.de"⟩).2 = .error err) ∧
    update_user [] ⟨pyStr "jane", pyStr "doe", 25, List.replicate 101 97⟩ =
      ([], .error .userNotFound) :=
  ⟨(c7_length_caps [] ⟨List.replicate 51 97, pyStr "doe", 25, pyStr "a@bc.de"⟩).1
      (by decide),
   (c7_length_caps [] ⟨List.replicate 51 97, pyStr "doe", 25, pyStr "a@bc.de"⟩).2.1
      (by decide),
   (c7_length_caps [] ⟨pyStr "jane", pyStr "doe", 25, List.replicate 101 97⟩).2.2
      (by decide) (by decide)⟩

/-- Every successfully constructed `UserVO` satisfies the field invariants,
whatever raw values it was built from. -/
theorem mkUserVO_invariants {i : Int} {n s e : PyStr} {a : Int} {u : UserVO}
    (h : mkUserVO i n s a e = .ok u) : returnedUserInvariants u := by
  obtain ⟨hage, hid, hm, rfl⟩ := (mkUserVO_ok_iff _ _ _ _ _ _).mp h
  exact ⟨hid, hage.1, hage.2, reMatchEmail_lower hm, (pyLower_idem e).symm,
    (pyLower_idem n).symm, (pyLower_idem s).symm⟩

/-- Every `UserVO` in a successful `get_all_users` result was produced by a
successful `mkUserVO` on some row. -/
theorem get_all_users_invariants :
    ∀ (t : List Row) (us : List UserVO), get_all_users t = .ok us →
      ∀ u ∈ us, returnedUserInvariants u := by
  intro t
  induction t with
  | nil =>
    intro us hall u hm
    unfold get_all_users at hall
    have hus := Except.ok.inj hall
    subst hus
    cases hm
  | cons r rs ih =>
    intro us hall u hm
    unfold get_all_users at hall
    cases hmk : mkUserVO r.id r.name r.surname r.age r.email with
    | error err =>
      rw [hmk] at hall
      cases hall
    | ok vo =>
      rw [hmk] at hall
      cases hrec : get_all_users rs with
      | error e2 =>
        rw [hrec] at hall
        cases hall
      | ok vs =>
        rw [hrec] at hall
        have hus := Except.ok.inj hall
        subst hus
        rcases List.mem_cons.mp hm with rfl | hm2
        · exact mkUserVO_invariants hmk
        · exact ih vs hrec u hm2

/-- C9: every `UserVO` returned by `add_user`, `get_user_by_email` or
`get_all_users` satisfies all field invariants — positive id, age in range,
pattern-matching lower-case email, lower-case name and surname — whatever
the underlying table rows contain, because `UserVO` construction
re-validates and re-normalizes every row. -/
theorem c9_returned_users_satisfy_invariants (t : List Row) (e : PyStr)
    (u0 : UserCreateUpdateVO) (u : UserVO) :
    (get_user_by_email t e = .ok u → returnedUserInvariants u) ∧
    (∀ t2, add_user t u0 = (t2, .ok u) → returnedUserInvariants u) ∧
    (∀ us, get_all_users t = .ok us → u ∈ us → returnedUserInvariants u) := by
  refine ⟨?_, ?_, ?_⟩
  · intro h
    unfold get_user_by_email at h
    cases hf : t.find? (fun r => decide (r.email = e)) with
    | none =>
      rw [hf] at h
      cases h
    | some r =>
      simp only [hf] at h
      cases hm : mkUserVO r.id r.name r.surname r.age r.email with
      | error err =>
        rw [hm] at h
        cases h
      | ok vo =>
        rw [hm] at h
        have hv := Except.ok.inj h
        subst hv
        exact mkUserVO_invariants hm
  · intro t2 h
    unfold add_user at h
    cases hi : sqliteInsert t u0.email u0.name u0.surname u0.age with
    | error e2 =>
      rw [hi] at h
      have h2 := congrArg Prod.snd h
      cases h2
    | ok p =>
      obtain ⟨t3, rid⟩ := p
      simp only [hi] at h
      cases hm : mkUserVO rid u0.name u0.surname u0.age u0.email with
      | error err =>
        rw [hm] at h
        have h2 := congrArg Prod.snd h
        cases h2
      | ok vo =>
        rw [hm] at h
        have h2 := congrArg Prod.snd h
        have hv := Except.ok.inj h2
        subst hv
        exact mkUserVO_invariants hm
  · intro us hall hm
    exact get_all_users_invariants t us hall u hm

/-- C9 witness: a row stored with mixed-case fields is returned re-validated
and re-normalized, satisfying every invariant. -/
theorem c9_returned_users_satisfy_invariants_witness :
    returnedUserInvariants ⟨1, pyStr "john", pyStr "doe", 25, pyStr "mixed@example.com"⟩ :=
  (c9_returned_users_satisfy_invariants
    [⟨1, pyStr "MiXeD@Example.COM", pyStr "JOHN", pyStr "DOE", 25⟩]
    (pyStr "MiXeD@Example.COM")
    ⟨pyStr "x", pyStr "y", 20, pyStr "x@yz.ab"⟩
    ⟨1, pyStr "john", pyStr "doe", 25, pyStr "mixed@example.com"⟩).1 (by decide)

/-- C6 counterexample: the record with email `"a@b.cd"` is validated by the
constructor and its email is absent from the empty table, yet `add_user`
fails — the email CHECK `LIKE '%_@__%.__%'` requires at least two characters
between `@` and the dot and two after it, which the regex-valid `"a@b.cd"`
does not have — so the add-then-get round trip is impossible. -/
theorem c6_roundtrip_counterexample :
    mkUserCreateUpdateVO (pyStr "ann") (pyStr "lee") 25 (pyStr "a@b.cd") =
      .ok ⟨pyStr "ann", pyStr "lee", 25, pyStr "a@b.cd"⟩ ∧
    add_user [] ⟨pyStr "ann", pyStr "lee", 25, pyStr "a@b.cd"⟩ =
      ([], .error .incorrectUserData) := by
  decide

/-- C6 amended: for every validated create-update record whose email is
absent from the table and which also satisfies the storage CHECK
constraints (email of at most 100 characters matching `'%_@__%.__%'`, name
and surname of at most 50 characters), on a table with positive rowids
`add_user` succeeds and `get_user_by_email` on the record's email returns
the same `UserVO`, whose fields equal the record's normalized fields and
whose id is a positive integer. -/
theorem c6_roundtrip_amended (t : List Row) (name surname email : PyStr)
    (age : Int) (u : UserCreateUpdateVO)
    (hmk : mkUserCreateUpdateVO name surname age email = .ok u)
    (hfresh : ∀ r ∈ t, r.email ≠ u.email)
    (hids : ∀ r ∈ t, 0 < r.id)
    (hlen : u.email.length ≤ 100)
    (hlike : likeMatch emailLikePat u.email = true)
    (hname : u.name.length ≤ 50)
    (hsurname : u.surname.length ≤ 50) :
    ∃ t2 vo, add_user t u = (t2, .ok vo) ∧
      get_user_by_email t2 u.email = .ok vo ∧
      vo.name = u.name ∧ vo.surname = u.surname ∧ vo.age = u.age ∧
      vo.email = u.email ∧ 0 < vo.id := by
  obtain ⟨hage, hm, hu⟩ := (mkUserCreateUpdateVO_ok_iff _ _ _ _ _).mp hmk
  have hue : u.email = pyLower email := by rw [hu]
  have hun : u.name = pyLower name := by rw [hu]
  have hus : u.surname = pyLower surname := by rw [hu]
  have hua : u.age = age := by rw [hu]
  have hm2 : reMatchEmail u.email = true := by
    rw [hue]
    exact reMatchEmail_lower hm
  have hrid : 0 < nextRowId t := nextRowId_pos t hids
  have hnodup : t.any (fun x => decide (x.email = u.email)) = false := by
    rw [List.any_eq_false]
    intro r hr
    simp only [decide_eq_true_eq]
    exact hfresh r hr
  have hrc : rowChecks ⟨nextRowId t, u.email, u.name, u.surname, u.age⟩ = true := by
    unfold rowChecks
    simp only [Bool.and_eq_true, decide_eq_true_eq]
    exact ⟨⟨⟨⟨hlen, hlike⟩, hname⟩, hsurname⟩, by rw [hua]; exact hage⟩
  have hins : sqliteInsert t u.email u.name u.surname u.age =
      .ok (t ++ [⟨nextRowId t, u.email, u.name, u.surname, u.age⟩], nextRowId t) := by
    unfold sqliteInsert
    simp [hnodup, hrc]
  have e1 : pyLower u.name = u.name := by rw [hun, pyLower_idem]
  have e2 : pyLower u.surname = u.surname := by rw [hus, pyLower_idem]
  have e3 : pyLower u.email = u.email := by rw [hue, pyLower_idem]
  have hvo : mkUserVO (nextRowId t) u.name u.surname u.age u.email =
      .ok ⟨nextRowId t, u.name, u.surname, u.age, u.email⟩ := by
    rw [mkUserVO_ok_iff]
    refine ⟨by rw [hua]; exact hage, hrid, hm2, ?_⟩
    rw [e1, e2, e3]
  refine ⟨t ++ [⟨nextRowId t, u.email, u.name, u.surname, u.age⟩],
    ⟨nextRowId t, u.name, u.surname, u.age, u.email⟩, ?_, ?_, rfl, rfl, rfl, rfl, hrid⟩
  · unfold add_user
    simp only [hins, hvo]
  · unfold get_user_by_email
    have hfind : (t ++ [(⟨nextRowId t, u.email, u.name, u.surname, u.age⟩ : Row)]).find?
        (fun r => decide (r.email = u.email)) =
        some (⟨nextRowId t, u.email, u.name, u.surname, u.age⟩ : Row) := by
      rw [List.find?_append]
      have h1 : t.find? (fun r => decide (r.email = u.email)) = none := by
        rw [List.find?_eq_none]
        intro r hr
        simp only [decide_eq_true_eq]
        exact hfresh r hr
      rw [h1, Option.none_or]
      exact List.find?_cons_of_pos _ (by simp)
    simp only [hfind, hvo]

/-- C6 amended witness: a concrete add-then-get round trip on the empty
table, returning the normalized fields with id 1. -/
theorem c6_roundtrip_amended_witness :
    ∃ t2 vo,
      add_user [] ⟨pyStr "john", pyStr "doe", 25, pyStr "john@example.com"⟩ =
        (t2, .ok vo) ∧
      get_user_by_email t2 (pyStr "john@example.com") = .ok vo ∧
      vo.name = pyStr "john" ∧ vo.surname = pyStr "doe" ∧ vo.age = 25 ∧
      vo.email = pyStr "john@example.com" ∧ 0 < vo.id :=
  c6_roundtrip_amended [] (pyStr "John") (pyStr "Doe") (pyStr "John@Example.com")
    25 ⟨pyStr "john", pyStr "doe", 25, pyStr "john@example.com"⟩
    (by decide) (by decide) (by decide) (by decide) (by decide) (by decide) (by decide)


end SqlRepo
